import Mathlib

/-!
Shallow embedding of the resolution pipeline of `crates/binstalk/src/ops/resolve.rs`
(the `cargo-binstall` repository).

Pure data and control flow are translated directly from the source.  External
collaborators (the crates.io registry lookup, the backend fetchers' network
probes and downloads, the `bins` path-templating helpers, the filesystem) are
modelled as oracle fields of a `ResolveEnv` record: the embedding is a function
of those oracles, which makes "no network access happens before X" statable as
independence from the corresponding oracle field.

Logging is modelled as an explicit trace of warning events produced by the
scan loop, and the concurrent probe tasks are modelled by their eventual
results together with a completion-time schedule (`awaitResults`), so that
order- and timing-related claims are statable.
-/

/-- Semantic version value, as produced by the external `semver` crate's
parser.  Equality is structural (field-wise), never string equality. -/
structure Version where
  major : Nat
  minor : Nat
  patch : Nat
  pre : String
  build : String
deriving DecidableEq

/-- Version requirement (`semver::VersionReq`).  The embedding only ever
selects, compares and displays requirements, so it is modelled by its
display string. -/
structure VersionReq where
  display : String
deriving DecidableEq

/-- `VersionReq::STAR`, the wildcard "any version" requirement. -/
def VersionReq.STAR : VersionReq := ⟨"*"⟩

/-- `CrateName`: a crate name with an optional version requirement embedded
in the reference (`name@req`). -/
structure CrateName where
  name : String
  version_req : Option VersionReq
deriving DecidableEq

/-- Error type of the resolution pipeline (`BinstallError`).  Constructors
used by code outside `resolve.rs` are collapsed to message-carrying
constructors. -/
inductive BinstallError where
  | SuperfluousVersionOption
  | CargoTomlMissingPackage (name : String)
  | VersionParse (v : String) (err : String)
  | UnspecifiedBinaries
  | DuplicateSourceFilePath (path : String)
  | CargoManifestPath
  | ManifestParse (msg : String)
  | CratesIoApi (msg : String)
  | Download (msg : String)
  | Template (msg : String)
  | ExpectedFileMissing (path : String)
deriving DecidableEq

/-- Modelled from the spec: `PkgOverride` (crate `binstalk-manifests`, not
under `src/`), the per-target / command-line override block: each field is
optional; a present field replaces the corresponding base field on merge. -/
structure PkgOverride where
  pkg_url : Option String := none
  pkg_fmt : Option String := none
  bin_dir : Option String := none
deriving DecidableEq

/-- Modelled from the spec: `PkgMeta` (crate `binstalk-manifests`, not under
`src/`), the packaging metadata: directory/url/format templates, the unused
public key, and the per-target-triple override map (modelled as an
association list). -/
structure PkgMeta where
  pkg_url : Option String := none
  pkg_fmt : Option String := none
  bin_dir : Option String := none
  pub_key : Option String := none
  overrides : List (String × PkgOverride) := []
deriving DecidableEq

/-- `PkgMeta::default()`: all fields absent. -/
def PkgMeta.default : PkgMeta := {}

/-- Modelled from the spec: `PkgMeta::clone_without_overrides` — the base
metadata with all per-target overrides stripped. -/
def PkgMeta.clone_without_overrides (m : PkgMeta) : PkgMeta :=
  { m with overrides := [] }

/-- Modelled from the spec: `PkgMeta::merge` — a field present in the
override replaces the corresponding base field, absent fields are
inherited. -/
def PkgMeta.merge (m : PkgMeta) (o : PkgOverride) : PkgMeta :=
  { m with
    pkg_url := o.pkg_url.or m.pkg_url
    pkg_fmt := o.pkg_fmt.or m.pkg_fmt
    bin_dir := o.bin_dir.or m.bin_dir }

/-- `cargo_toml::Product`: an entry of the manifest's `[[bin]]` list. -/
structure Product where
  name : Option String := none
deriving DecidableEq

/-- `Meta`: the `[package.metadata]` table, holding the optional
`binstall` block. -/
structure Meta where
  binstall : Option PkgMeta := none
deriving DecidableEq

/-- `cargo_toml::Package<Meta>`: the `[package]` section. -/
structure Package where
  name : String
  version : String
  repository : Option String := none
  metadata : Option Meta := none
deriving DecidableEq

/-- `cargo_toml::Manifest<Meta>`: the parts of the manifest the resolver
reads. -/
structure Manifest where
  package : Option Package := none
  bin : List Product := []
deriving DecidableEq

/-- The two fetcher backends registered in `resolve_inner`
(`GhCrateMeta::new`, `QuickInstall::new`), in their source order. -/
inductive FetcherKind where
  | ghCrateMeta
  | quickInstall
deriving DecidableEq

/-- Modelled from the spec: `Fetcher::fetcher_name` of each backend
(backend implementations live outside `src/`); only injectivity per kind
matters here. -/
def FetcherKind.fetcher_name : FetcherKind → String
  | .ghCrateMeta => "GhCrateMeta"
  | .quickInstall => "QuickInstall"

/-- Modelled from the spec: `Fetcher::source_name` of each backend, used in
diagnostics. -/
def FetcherKind.source_name : FetcherKind → String
  | .ghCrateMeta => "GhCrateMeta"
  | .quickInstall => "QuickInstall"

/-- `fetchers::Data`: the per-(target × crate) record the matrix builder
hands to each fetcher constructor. -/
structure Data where
  name : String
  target : String
  version : String
  repo : Option String
  meta : PkgMeta
deriving DecidableEq

/-- `bins::BinFile`: the resolved mapping from an extracted file to its
installed location. -/
structure BinFile where
  base_name : String
  source : String
  dest : String
  link : String
deriving DecidableEq

/-- Modelled from the spec: the substitution variables handed to the
`bins` path renderer for one declared binary — package name, repository
URL, target triple, version, binary name, plus the resolved directory
template and the two root paths.  Note there is no public-key field: §4.5
step 3 lists exactly these variables. -/
structure RenderCtx where
  name : String
  repo : Option String
  target : String
  version : String
  bin : String
  bin_dir : String
  bin_path : String
  install_path : String
deriving DecidableEq

/-- Kind of a filesystem path, for `load_manifest_path`'s
`is_dir`/`is_file` checks. -/
inductive PathKind where
  | dir
  | file
  | other
deriving DecidableEq

/-- Warning events emitted by the scan loop of `resolve_inner`
(`warn!` calls at lines 255 and 265 of `resolve.rs`). -/
inductive LogEvent where
  | warnDownloadExtract (source_name : String) (err : BinstallError)
  | warnProbeError (source_name : String) (err : String)
deriving DecidableEq

/-- Oracle record for every external collaborator the resolver calls:
registry lookup, local-manifest filesystem and parser, semver parser,
backend probes and downloads, `bins` template helpers, and the
existence check on extracted files. -/
structure ResolveEnv where
  fetch_crate_cratesio : String → VersionReq → Except BinstallError Manifest
  pathKind : String → PathKind
  parseManifest : String → Except BinstallError Manifest
  parseVersion : String → Except String Version
  probe : FetcherKind → Data → Except String Bool
  fetchAndExtract : FetcherKind → Data → String → Except BinstallError Unit
  inferBinDirTemplate : String → String → String → String → String
  fromProduct : RenderCtx → Except BinstallError BinFile
  sourceExists : String → Bool

/-- One spawned fetcher together with its probe handle: the accessors of
`dyn Fetcher` plus the eventual result of the spawned `fetcher.find()`
task and the download closure. -/
structure Fetcher where
  kind : FetcherKind
  target : String
  fetcher_name : String
  source_name : String
  target_meta : PkgMeta
  find : Except String Bool
  fetch_and_extract : String → Except BinstallError Unit

/-- `Options`: the caller-supplied options read by `resolve_inner`. -/
structure Options where
  version_req : Option VersionReq := none
  manifest_path : Option String := none
  cli_overrides : PkgOverride := {}
  desired_targets : List String := []

/-- The version-requirement selection match of `resolve_inner`
(lines 129–134 of `resolve.rs`). -/
def selectVersionReq : Option VersionReq → Option VersionReq → Except BinstallError VersionReq
  | some v, none => .ok v
  | none, some v => .ok v
  | some _, some _ => .error .SuperfluousVersionOption
  | none, none => .ok VersionReq.STAR

/-- `load_manifest_path`: directory gets `Cargo.toml` appended, a file is
used directly, anything else is `CargoManifestPath`. -/
def load_manifest_path (env : ResolveEnv) (manifest_path : String) : Except BinstallError Manifest :=
  match env.pathKind manifest_path with
  | .dir => env.parseManifest (manifest_path ++ "/Cargo.toml")
  | .file => env.parseManifest manifest_path
  | .other => .error .CargoManifestPath

/-- The manifest-acquisition match of `resolve_inner` (lines 139–150):
local manifest path if supplied, otherwise the crates.io driver. -/
def fetchManifest (env : ResolveEnv) (opts : Options) (name : String) (vr : VersionReq) :
    Except BinstallError Manifest :=
  match opts.manifest_path with
  | some p => load_manifest_path env p
  | none => env.fetch_crate_cratesio name vr

/-- The up-to-date check of `resolve_inner` (lines 156–170): when a current
version is supplied, parse the package's version string and compare the
parsed values. -/
def checkUpToDate (env : ResolveEnv) (package : Package) : Option Version → Except BinstallError Bool
  | none => .ok false
  | some curr =>
    match env.parseVersion package.version with
    | .error err => .error (.VersionParse package.version err)
    | .ok new_version => .ok (decide (new_version = curr))

/-- The effective per-target metadata computation of `resolve_inner`
(lines 196–205): strip the overrides, merge the entry for this exact
target triple if present, then merge the command-line overrides. -/
def effectiveTargetMeta (meta : PkgMeta) (cli : PkgOverride) (target : String) : PkgMeta :=
  let base := meta.clone_without_overrides
  let merged :=
    match (meta.overrides.find? (fun e => e.1 = target)).map Prod.snd with
    | some o => base.merge o
    | none => base
  merged.merge cli

/-- Lookup in the per-target override map (`meta.overrides.get(target)`). -/
def lookupOverride (overrides : List (String × PkgOverride)) (target : String) : Option PkgOverride :=
  (overrides.find? (fun e => e.1 = target)).map Prod.snd

/-- The `fetchers::Data` record built for one target (lines 207–213). -/
def mkFetcherData (package : Package) (meta : PkgMeta) (cli : PkgOverride) (target : String) : Data :=
  { name := package.name
    target := target
    version := package.version
    repo := package.repository
    meta := effectiveTargetMeta meta cli target }

/-- Modelled from the spec: fetcher construction (`GhCrateMeta::new` /
`QuickInstall::new`, outside `src/`): a backend stores its construction
data and exposes the spec §6 accessors over it; `find` is the eventual
result of the spawned probe task. -/
def mkFetcher (env : ResolveEnv) (k : FetcherKind) (d : Data) : Fetcher :=
  { kind := k
    target := d.target
    fetcher_name := k.fetcher_name
    source_name := k.source_name
    target_meta := d.meta
    find := env.probe k d
    fetch_and_extract := env.fetchAndExtract k d }

/-- `itertools::cartesian_product` on lists: pairs every element of the
first list, in order, with every element of the second list, in order. -/
def cartesianProduct : List α → List β → List (α × β)
  | [], _ => []
  | x :: xs, ys => ys.map (fun y => (x, y)) ++ cartesianProduct xs ys

/-- The handle-building extend of `resolve_inner` (lines 190–223): data per
target, cartesian product with the two fetcher constructors, fetchers
constructed and their probes spawned. -/
def buildHandles (env : ResolveEnv) (package : Package) (meta : PkgMeta) (cli : PkgOverride)
    (desired_targets : List String) : List Fetcher :=
  (cartesianProduct (desired_targets.map (mkFetcherData package meta cli))
      [FetcherKind.ghCrateMeta, FetcherKind.quickInstall]).map
    (fun p => mkFetcher env p.2 p.1)

/-- The target-major, backend-minor cross product in which the spec says
probe results are consulted. -/
def targetMajorOrder : List String → List (String × FetcherKind)
  | [] => []
  | t :: ts => (t, .ghCrateMeta) :: (t, .quickInstall) :: targetMajorOrder ts

/-- Sequential awaiting of concurrently running probe tasks: task `i`
completes at time `completion i`; the engine awaits the tasks strictly in
list order, so awaiting the `i`-th task returns at the maximum of the
current time and its completion time, with its predetermined result. -/
def awaitResults (completion : Nat → Nat) :
    Nat → Nat → List (Except String Bool) → List (Nat × Except String Bool)
  | _, _, [] => []
  | now, idx, r :: rs =>
    (max now (completion idx), r) :: awaitResults completion (max now (completion idx)) (idx + 1) rs

/-- The temporary binary path of the scan loop (lines 229–234):
`temp_dir/bin-{name}-{target}-{fetcher_name}`. -/
def binPathFor (temp_dir crate_name : String) (f : Fetcher) : String :=
  temp_dir ++ "/bin-" ++ crate_name ++ "-" ++ f.target ++ "-" ++ f.fetcher_name

/-- Rendering of all declared binaries (`binaries.iter().map(from_product).collect`
inside `collect_bin_files`), short-circuiting on the first error. -/
def renderBinFiles (env : ResolveEnv) (package : Package) (target : String)
    (bin_dir bin_path install_path : String) : List Product → Except BinstallError (List BinFile)
  | [] => .ok []
  | p :: rest =>
    match env.fromProduct
        { name := package.name
          repo := package.repository
          target := target
          version := package.version
          bin := p.name.getD ""
          bin_dir := bin_dir
          bin_path := bin_path
          install_path := install_path } with
    | .error e => .error e
    | .ok bf =>
      match renderBinFiles env package target bin_dir bin_path install_path rest with
      | .error e => .error e
      | .ok bfs => .ok (bf :: bfs)

/-- The `BTreeSet` duplicate scan of `collect_bin_files` (lines 370–378):
walk the rendered files in order, remembering the source paths seen so
far; report the first source path whose insertion fails. -/
def findDuplicateSource : List BinFile → List String → Option String
  | [], _ => none
  | bf :: rest, seen =>
    if bf.source ∈ seen then some bf.source
    else findDuplicateSource rest (bf.source :: seen)

/-- `collect_bin_files`: resolve the directory template (explicit
`bin_dir` if present, inferred otherwise), render every declared binary,
then enforce the distinct-source invariant. -/
def collect_bin_files (env : ResolveEnv) (fetcher : Fetcher) (package : Package) (meta : PkgMeta)
    (binaries : List Product) (bin_path install_path : String) :
    Except BinstallError (List BinFile) :=
  let bin_dir := meta.bin_dir.getD
    (env.inferBinDirTemplate package.name fetcher.target package.version bin_path)
  match renderBinFiles env package fetcher.target bin_dir bin_path install_path binaries with
  | .error e => .error e
  | .ok bin_files =>
    match findDuplicateSource bin_files [] with
    | some p => .error (.DuplicateSourceFilePath p)
    | none => .ok bin_files

/-- The `check_source_exists` loop of `download_extract_and_verify`
(lines 328–330): every computed source path must exist on disk. -/
def checkSourcesExist (env : ResolveEnv) : List BinFile → Except BinstallError Unit
  | [] => .ok ()
  | bf :: rest =>
    if env.sourceExists bf.source then checkSourcesExist env rest
    else .error (.ExpectedFileMissing bf.source)

/-- `download_extract_and_verify`: download and unpack the artifact, then
(the signature-verification block at lines 293–315 is compiled out under
`cfg(incomplete)`) collect the binary files and verify every source path
exists. -/
def download_extract_and_verify (env : ResolveEnv) (fetcher : Fetcher) (bin_path : String)
    (package : Package) (install_path : String) (binaries : List Product) :
    Except BinstallError (List BinFile) :=
  match fetcher.fetch_and_extract bin_path with
  | .error e => .error e
  | .ok _ =>
    match collect_bin_files env fetcher package fetcher.target_meta binaries bin_path install_path with
    | .error e => .error e
    | .ok bin_files =>
      match checkSourcesExist env bin_files with
      | .error e => .error e
      | .ok _ => .ok bin_files

/-- `Resolution`: the tri-state outcome of the pipeline. -/
inductive Resolution where
  | Fetch (fetcher : Fetcher) (package : Package) (name : String) (version_req : String)
      (bin_files : List BinFile)
  | InstallFromSource (package : Package)
  | AlreadyUpToDate

/-- Context threaded through the scan loop of `resolve_inner`. -/
structure ScanCtx where
  env : ResolveEnv
  crate_name : String
  version_req : VersionReq
  temp_dir : String
  install_path : String
  package : Package
  binaries : List Product

/-- The scan loop of `resolve_inner` (lines 225–272): visit the fetchers in
matrix order; on a positive probe run the pipeline and commit on success;
on a pipeline failure or a probe error emit a warning and continue; on a
negative probe continue silently; exhaustion falls through.  The second
component is the trace of warnings. -/
def scanLoop (ctx : ScanCtx) : List Fetcher → Except BinstallError Resolution × List LogEvent
  | [] => (.ok (.InstallFromSource ctx.package), [])
  | f :: rest =>
    match f.find with
    | .ok true =>
      match download_extract_and_verify ctx.env f (binPathFor ctx.temp_dir ctx.crate_name f)
          ctx.package ctx.install_path ctx.binaries with
      | .ok bin_files =>
        (.ok (.Fetch f ctx.package ctx.crate_name ctx.version_req.display bin_files), [])
      | .error err =>
        ((scanLoop ctx rest).1, .warnDownloadExtract f.source_name err :: (scanLoop ctx rest).2)
    | .ok false => scanLoop ctx rest
    | .error err =>
      ((scanLoop ctx rest).1, .warnProbeError f.source_name err :: (scanLoop ctx rest).2)

/-- `resolve_inner`: the whole resolution pipeline, in source order —
version-requirement selection, manifest acquisition, package extraction,
up-to-date check, metadata/binaries extraction, named-binaries filter and
emptiness check, handle construction, scan. -/
def resolve_inner (env : ResolveEnv) (opts : Options) (crate_name : CrateName)
    (curr_version : Option Version) (temp_dir install_path : String) :
    Except BinstallError Resolution :=
  match selectVersionReq crate_name.version_req opts.version_req with
  | .error e => .error e
  | .ok version_req =>
    match fetchManifest env opts crate_name.name version_req with
    | .error e => .error e
    | .ok manifest =>
      match manifest.package with
      | none => .error (.CargoTomlMissingPackage crate_name.name)
      | some package =>
        match checkUpToDate env package curr_version with
        | .error e => .error e
        | .ok true => .ok .AlreadyUpToDate
        | .ok false =>
          let meta := (package.metadata.bind Meta.binstall).getD PkgMeta.default
          let binaries := manifest.bin.filter (fun p => p.name.isSome)
          if binaries.isEmpty then
            .error .UnspecifiedBinaries
          else
            (scanLoop
              { env := env
                crate_name := crate_name.name
                version_req := version_req
                temp_dir := temp_dir
                install_path := install_path
                package := package
                binaries := binaries }
              (buildHandles env package meta opts.cli_overrides opts.desired_targets)).1

/-- Helper: the pair projection of the built handle list is the
target-major, backend-minor cross product. -/
theorem buildHandles_pairs (env : ResolveEnv) (package : Package) (meta : PkgMeta)
    (cli : PkgOverride) (targets : List String) :
    (buildHandles env package meta cli targets).map (fun f => (f.target, f.kind))
      = targetMajorOrder targets := by
  induction targets with
  | nil => rfl
  | cons t ts ih =>
    simp only [buildHandles, List.map_cons, cartesianProduct, List.map_append,
      List.map_nil, List.cons_append, List.nil_append] at ih ⊢
    simp only [List.map_map, mkFetcher] at ih
    simp [targetMajorOrder, mkFetcher, mkFetcherData, ih]

/-- Helper: sequentially awaiting the probe handles yields exactly their
predetermined results, whatever the completion schedule. -/
theorem awaitResults_snd (completion : Nat → Nat) (results : List (Except String Bool)) :
    ∀ now idx, (awaitResults completion now idx results).map Prod.snd = results := by
  induction results with
  | nil => intro now idx; rfl
  | cons r rs ih => intro now idx; simp [awaitResults, ih]

/-- C1: for every resolution, the ordered sequence of (target, backend)
pairs whose probe results are evaluated is exactly the target-major,
backend-minor cross product of the desired target list with the two
backend kinds, and the sequence of results consulted by awaiting the
spawned probes in that order is their predetermined result list,
independent of the completion-time schedule of the probes. -/
theorem C1_matrix_order (env : ResolveEnv) (package : Package) (meta : PkgMeta)
    (cli : PkgOverride) (targets : List String) (completion : Nat → Nat) (now idx : Nat)
    (results : List (Except String Bool)) :
    (buildHandles env package meta cli targets).map (fun f => (f.target, f.kind))
        = targetMajorOrder targets
    ∧ (awaitResults completion now idx results).map Prod.snd = results :=
  ⟨buildHandles_pairs env package meta cli targets, awaitResults_snd completion results now idx⟩

/-- C2: with both version requirements absent the wildcard requirement is
selected, and a resolution in registry mode hands exactly the wildcard to
the registry oracle; with exactly one requirement present that one is
selected and handed to the registry oracle; with both present resolution
fails with the conflicting-specifiers error for every oracle environment
(the environment is universally quantified and absent from the
conclusion), hence before any network or manifest access. -/
theorem C2_version_requirement_selection (env : ResolveEnv) (name : String)
    (v v1 v2 : VersionReq) (mp : Option String) (cli : PkgOverride) (targets : List String)
    (curr : Option Version) (temp_dir install_path : String) :
    selectVersionReq none none = .ok VersionReq.STAR
    ∧ selectVersionReq (some v) none = .ok v
    ∧ selectVersionReq none (some v) = .ok v
    ∧ resolve_inner
        { env with fetch_crate_cratesio := fun _ vr => .error (.CratesIoApi vr.display) }
        { version_req := none, manifest_path := none, cli_overrides := cli,
          desired_targets := targets }
        ⟨name, none⟩ curr temp_dir install_path = .error (.CratesIoApi "*")
    ∧ resolve_inner
        { env with fetch_crate_cratesio := fun _ vr => .error (.CratesIoApi vr.display) }
        { version_req := none, manifest_path := none, cli_overrides := cli,
          desired_targets := targets }
        ⟨name, some v⟩ curr temp_dir install_path = .error (.CratesIoApi v.display)
    ∧ resolve_inner
        { env with fetch_crate_cratesio := fun _ vr => .error (.CratesIoApi vr.display) }
        { version_req := some v, manifest_path := none, cli_overrides := cli,
          desired_targets := targets }
        ⟨name, none⟩ curr temp_dir install_path = .error (.CratesIoApi v.display)
    ∧ resolve_inner env
        { version_req := some v2, manifest_path := mp, cli_overrides := cli,
          desired_targets := targets }
        ⟨name, some v1⟩ curr temp_dir install_path = .error .SuperfluousVersionOption :=
  ⟨rfl, rfl, rfl, rfl, rfl, rfl, rfl⟩

/-- Replace only the public-key field of a packaging metadata value. -/
def PkgMeta.withPubKey (m : PkgMeta) (k : Option String) : PkgMeta :=
  { m with pub_key := k }

/-- C9: the fetch-extract-verify pipeline performs no signature
verification — two invocations whose fetchers differ only in the
metadata's public-key field return identical results. -/
theorem C9_pub_key_no_effect (env : ResolveEnv) (fetcher : Fetcher) (bin_path : String)
    (package : Package) (install_path : String) (binaries : List Product) (k : Option String) :
    download_extract_and_verify env { fetcher with target_meta := fetcher.target_meta.withPubKey k }
        bin_path package install_path binaries
      = download_extract_and_verify env fetcher bin_path package install_path binaries := rfl

/-- Number of occurrences of a string in a list. -/
def countOcc (s : String) : List String → Nat
  | [] => 0
  | x :: xs => (if x = s then 1 else 0) + countOcc s xs

/-- Helper: membership gives at least one occurrence. -/
theorem countOcc_pos_of_mem {s : String} {l : List String} (h : s ∈ l) : 1 ≤ countOcc s l := by
  induction l with
  | nil => cases h
  | cons x xs ih =>
    rcases List.mem_cons.mp h with he | hm
    · simp [countOcc, he]
    · have := ih hm
      simp only [countOcc]
      omega

/-- Helper: when the duplicate scan reports nothing, the source paths are
pairwise distinct and disjoint from the seen set. -/
theorem findDuplicateSource_none (bfs : List BinFile) :
    ∀ seen, findDuplicateSource bfs seen = none →
      (bfs.map BinFile.source).Nodup ∧ ∀ s ∈ seen, s ∉ bfs.map BinFile.source := by
  induction bfs with
  | nil =>
    intro seen _
    exact ⟨List.nodup_nil, by simp⟩
  | cons bf rest ih =>
    intro seen h
    rw [findDuplicateSource] at h
    split at h
    · exact absurd h (by simp)
    · rename_i hns
      obtain ⟨hnd, hdisj⟩ := ih _ h
      refine ⟨?_, ?_⟩
      · simp only [List.map_cons, List.nodup_cons]
        exact ⟨hdisj bf.source (by simp), hnd⟩
      · intro s hs
        simp only [List.map_cons, List.mem_cons]
        rintro (he | hr)
        · exact hns (he ▸ hs)
        · exact (hdisj s (List.mem_cons_of_mem _ hs)) hr

/-- Helper: when the duplicate scan reports a path, that path occurs at
least twice among the seen set and the remaining source paths. -/
theorem findDuplicateSource_some (bfs : List BinFile) :
    ∀ seen p, findDuplicateSource bfs seen = some p →
      2 ≤ countOcc p seen + countOcc p (bfs.map BinFile.source) := by
  induction bfs with
  | nil => intro seen p h; exact absurd h (by simp [findDuplicateSource])
  | cons bf rest ih =>
    intro seen p h
    rw [findDuplicateSource] at h
    split at h
    · rename_i hm
      cases h
      have h1 : 1 ≤ countOcc bf.source seen := countOcc_pos_of_mem hm
      simp only [List.map_cons, countOcc]
      rw [if_pos trivial]
      omega
    · rename_i hns
      have h2 := ih _ _ h
      simp only [countOcc, List.map_cons] at h2 ⊢
      omega

/-- C4: if the rendered source paths of two declared binaries coincide,
`collect_bin_files` fails with the duplicate-source-file-path error
carrying an offending (duplicated) path; consequently the source paths of
any successfully returned list are pairwise distinct. -/
theorem C4_distinct_sources (env : ResolveEnv) (fetcher : Fetcher) (package : Package)
    (meta : PkgMeta) (binaries : List Product) (bin_path install_path : String) :
    (∀ bin_files,
        collect_bin_files env fetcher package meta binaries bin_path install_path
            = .ok bin_files →
        (bin_files.map BinFile.source).Nodup)
    ∧ (∀ bin_files,
        renderBinFiles env package fetcher.target
            (meta.bin_dir.getD
              (env.inferBinDirTemplate package.name fetcher.target package.version bin_path))
            bin_path install_path binaries = .ok bin_files →
        ¬ (bin_files.map BinFile.source).Nodup →
        ∃ p, collect_bin_files env fetcher package meta binaries bin_path install_path
                = .error (.DuplicateSourceFilePath p)
            ∧ 2 ≤ countOcc p (bin_files.map BinFile.source)) := by
  constructor
  · intro bfs h
    simp only [collect_bin_files] at h
    cases hr : renderBinFiles env package fetcher.target
        (meta.bin_dir.getD
          (env.inferBinDirTemplate package.name fetcher.target package.version bin_path))
        bin_path install_path binaries with
    | error e => simp [hr] at h
    | ok l =>
      simp only [hr] at h
      cases hd : findDuplicateSource l [] with
      | some p => simp [hd] at h
      | none =>
        simp only [hd] at h
        have hlb : l = bfs := by simpa using h
        subst hlb
        exact (findDuplicateSource_none l [] hd).1
  · intro bfs hr hnd
    cases hd : findDuplicateSource bfs [] with
    | none => exact absurd (findDuplicateSource_none bfs [] hd).1 hnd
    | some p =>
      refine ⟨p, ?_, ?_⟩
      · simp only [collect_bin_files, hr, hd]
      · have := findDuplicateSource_some bfs [] p hd
        simpa [countOcc] using this

/-- Helper: the scan loop never returns an error — every per-pair failure
is converted into continuation. -/
theorem scanLoop_never_errors (ctx : ScanCtx) (fs : List Fetcher) :
    ∃ r, (scanLoop ctx fs).1 = Except.ok r := by
  induction fs with
  | nil => exact ⟨_, rfl⟩
  | cons f rest ih =>
    rw [scanLoop]
    cases hf : f.find with
    | error e => simpa using ih
    | ok b =>
      cases b with
      | false => simpa using ih
      | true =>
        cases hd : download_extract_and_verify ctx.env f
            (binPathFor ctx.temp_dir ctx.crate_name f) ctx.package ctx.install_path
            ctx.binaries with
        | ok bfs => exact ⟨_, rfl⟩
        | error e => simpa using ih

/-- C5: a pair whose probe reports existence but whose pipeline fails is
logged as a warning and the scan continues; a pair whose probe reports
non-existence is skipped silently; a pair whose probe errors is logged as
a warning and skipped; and the scan never aborts the resolution. -/
theorem C5_failures_logged_and_skipped (ctx : ScanCtx) (f : Fetcher) (rest : List Fetcher) :
    (f.find = .ok false → scanLoop ctx (f :: rest) = scanLoop ctx rest)
    ∧ (∀ e, f.find = .error e →
        (scanLoop ctx (f :: rest)).1 = (scanLoop ctx rest).1
        ∧ (scanLoop ctx (f :: rest)).2
            = .warnProbeError f.source_name e :: (scanLoop ctx rest).2)
    ∧ (∀ e, f.find = .ok true →
        download_extract_and_verify ctx.env f (binPathFor ctx.temp_dir ctx.crate_name f)
            ctx.package ctx.install_path ctx.binaries = .error e →
        (scanLoop ctx (f :: rest)).1 = (scanLoop ctx rest).1
        ∧ (scanLoop ctx (f :: rest)).2
            = .warnDownloadExtract f.source_name e :: (scanLoop ctx rest).2)
    ∧ (∀ gs, ∃ r, (scanLoop ctx gs).1 = Except.ok r) := by
  refine ⟨?_, ?_, ?_, scanLoop_never_errors ctx⟩
  · intro hf
    rw [scanLoop, hf]
  · intro e hf
    rw [scanLoop, hf]
    exact ⟨rfl, rfl⟩
  · intro e hf hd
    rw [scanLoop, hf, hd]
    exact ⟨rfl, rfl⟩

/-- C7: if no pair of the scan commits a successful fetch, the scan
terminates successfully with `InstallFromSource` carrying the resolved
package. -/
theorem C7_exhaustion_install_from_source (ctx : ScanCtx) (fs : List Fetcher) :
    (∀ f, f ∈ fs → f.find = .ok true →
        ∀ bfs, download_extract_and_verify ctx.env f (binPathFor ctx.temp_dir ctx.crate_name f)
            ctx.package ctx.install_path ctx.binaries ≠ .ok bfs) →
    (scanLoop ctx fs).1 = .ok (.InstallFromSource ctx.package) := by
  intro hall
  induction fs with
  | nil => rfl
  | cons f rest ih =>
    have ihr := ih (fun g hg => hall g (List.mem_cons_of_mem _ hg))
    rw [scanLoop]
    cases hf : f.find with
    | error e => simpa using ihr
    | ok b =>
      cases b with
      | false => simpa using ihr
      | true =>
        cases hd : download_extract_and_verify ctx.env f
            (binPathFor ctx.temp_dir ctx.crate_name f) ctx.package ctx.install_path
            ctx.binaries with
        | ok bfs => exact absurd hd (hall f (by simp) hf bfs)
        | error e => simpa using ihr

/-- Helper: an override entry for a different target triple does not
change the override lookup. -/
theorem lookupOverride_cons_ne (t target : String) (o : PkgOverride)
    (rest : List (String × PkgOverride)) (h : t ≠ target) :
    lookupOverride ((t, o) :: rest) target = lookupOverride rest target := by
  simp [lookupOverride, List.find?, h]

/-- C6: the effective per-target metadata is the three-way merge — base
with overrides stripped, then the override-map entry for this exact
target, then the command-line override, each field replace-if-present —
and override entries for other target triples have no effect. -/
theorem C6_three_way_merge (meta : PkgMeta) (cli : PkgOverride) (target : String) :
    ((effectiveTargetMeta meta cli target).pkg_url
        = cli.pkg_url.or
            (((lookupOverride meta.overrides target).bind PkgOverride.pkg_url).or meta.pkg_url))
    ∧ ((effectiveTargetMeta meta cli target).pkg_fmt
        = cli.pkg_fmt.or
            (((lookupOverride meta.overrides target).bind PkgOverride.pkg_fmt).or meta.pkg_fmt))
    ∧ ((effectiveTargetMeta meta cli target).bin_dir
        = cli.bin_dir.or
            (((lookupOverride meta.overrides target).bind PkgOverride.bin_dir).or meta.bin_dir))
    ∧ (effectiveTargetMeta meta cli target).pub_key = meta.pub_key
    ∧ (effectiveTargetMeta meta cli target).overrides = []
    ∧ (∀ t o, t ≠ target →
        effectiveTargetMeta { meta with overrides := (t, o) :: meta.overrides } cli target
          = effectiveTargetMeta meta cli target) := by
  refine ⟨?_, ?_, ?_, ?_, ?_, ?_⟩
  · cases hl : meta.overrides.find? (fun e => e.1 = target) with
    | none =>
      simp [effectiveTargetMeta, lookupOverride, hl, PkgMeta.merge, PkgMeta.clone_without_overrides]
    | some e =>
      simp [effectiveTargetMeta, lookupOverride, hl, PkgMeta.merge, PkgMeta.clone_without_overrides]
  · cases hl : meta.overrides.find? (fun e => e.1 = target) with
    | none =>
      simp [effectiveTargetMeta, lookupOverride, hl, PkgMeta.merge, PkgMeta.clone_without_overrides]
    | some e =>
      simp [effectiveTargetMeta, lookupOverride, hl, PkgMeta.merge, PkgMeta.clone_without_overrides]
  · cases hl : meta.overrides.find? (fun e => e.1 = target) with
    | none =>
      simp [effectiveTargetMeta, lookupOverride, hl, PkgMeta.merge, PkgMeta.clone_without_overrides]
    | some e =>
      simp [effectiveTargetMeta, lookupOverride, hl, PkgMeta.merge, PkgMeta.clone_without_overrides]
  · cases hl : meta.overrides.find? (fun e => e.1 = target) with
    | none =>
      simp [effectiveTargetMeta, hl, PkgMeta.merge, PkgMeta.clone_without_overrides]
    | some e =>
      simp [effectiveTargetMeta, hl, PkgMeta.merge, PkgMeta.clone_without_overrides]
  · cases hl : meta.overrides.find? (fun e => e.1 = target) with
    | none =>
      simp [effectiveTargetMeta, hl, PkgMeta.merge, PkgMeta.clone_without_overrides]
    | some e =>
      simp [effectiveTargetMeta, hl, PkgMeta.merge, PkgMeta.clone_without_overrides]
  · intro t o h
    have hfind : ((t, o) :: meta.overrides).find? (fun e => e.1 = target)
        = meta.overrides.find? (fun e => e.1 = target) := by
      simp [List.find?, h]
    simp only [effectiveTargetMeta, hfind, PkgMeta.clone_without_overrides]

/-- C3: after a successful manifest fetch, when the caller supplies a
current version and the package's version string parses to an equal
semantic version, the result is `AlreadyUpToDate` for every probe oracle
(so no probe result is consulted); when the version string fails to
parse, resolution fails with `VersionParse` carrying the string and the
diagnostic. -/
theorem C3_already_up_to_date (env : ResolveEnv) (opts : Options) (cn : CrateName)
    (temp_dir install_path : String) (vr : VersionReq) (manifest : Manifest) (package : Package) :
    selectVersionReq cn.version_req opts.version_req = .ok vr →
    fetchManifest env opts cn.name vr = .ok manifest →
    manifest.package = some package →
    ((∀ new_version curr, env.parseVersion package.version = .ok new_version →
        new_version = curr →
        ∀ pr, resolve_inner { env with probe := pr } opts cn (some curr) temp_dir install_path
            = .ok Resolution.AlreadyUpToDate)
     ∧ (∀ e curr, env.parseVersion package.version = .error e →
        resolve_inner env opts cn (some curr) temp_dir install_path
            = .error (.VersionParse package.version e))) := by
  intro hv hm hp
  constructor
  · intro nv curr hparse heq pr
    subst heq
    have hm' : fetchManifest { env with probe := pr } opts cn.name vr = .ok manifest := hm
    have hparse' : ResolveEnv.parseVersion { env with probe := pr } package.version
        = .ok nv := hparse
    simp only [resolve_inner, hv, hm', hp, checkUpToDate, hparse', hparse]
    simp
  · intro e curr hparse
    simp only [resolve_inner, hv, hm, hp, checkUpToDate, hparse]

/-- C8: after the earlier stages succeed, a manifest whose binary list
contains no named entry — however many unnamed entries it has — makes
resolution fail with the no-binaries error. -/
theorem C8_no_named_binaries (env : ResolveEnv) (opts : Options) (cn : CrateName)
    (temp_dir install_path : String) (vr : VersionReq) (manifest : Manifest) (package : Package) :
    selectVersionReq cn.version_req opts.version_req = .ok vr →
    fetchManifest env opts cn.name vr = .ok manifest →
    manifest.package = some package →
    (∀ p ∈ manifest.bin, p.name = none) →
    resolve_inner env opts cn none temp_dir install_path = .error .UnspecifiedBinaries := by
  intro hv hm hp hall
  have hfil : manifest.bin.filter (fun p => p.name.isSome) = [] := by
    rw [List.filter_eq_nil_iff]
    intro a ha
    simp [hall a ha]
  simp only [resolve_inner, hv, hm, hp, checkUpToDate, hfil]
  simp

/-- Helper: the binary-path renderer never consults the version parser. -/
theorem renderBinFiles_parseVersion (env : ResolveEnv) (pv : String → Except String Version)
    (package : Package) (target bin_dir bin_path install_path : String) (ps : List Product) :
    renderBinFiles { env with parseVersion := pv } package target bin_dir bin_path install_path ps
      = renderBinFiles env package target bin_dir bin_path install_path ps := by
  induction ps with
  | nil => rfl
  | cons p rest ih =>
    rw [renderBinFiles, renderBinFiles, ih]

/-- Helper: the source-existence check never consults the version parser. -/
theorem checkSourcesExist_parseVersion (env : ResolveEnv) (pv : String → Except String Version)
    (bfs : List BinFile) :
    checkSourcesExist { env with parseVersion := pv } bfs = checkSourcesExist env bfs := by
  induction bfs with
  | nil => rfl
  | cons bf rest ih =>
    rw [checkSourcesExist, checkSourcesExist, ih]

/-- Helper: `collect_bin_files` never consults the version parser. -/
theorem collect_bin_files_parseVersion (env : ResolveEnv) (pv : String → Except String Version)
    (fetcher : Fetcher) (package : Package) (meta : PkgMeta) (binaries : List Product)
    (bin_path install_path : String) :
    collect_bin_files { env with parseVersion := pv } fetcher package meta binaries bin_path
        install_path
      = collect_bin_files env fetcher package meta binaries bin_path install_path := by
  simp only [collect_bin_files, renderBinFiles_parseVersion]

/-- Helper: the fetch-extract-verify pipeline never consults the version
parser. -/
theorem download_extract_and_verify_parseVersion (env : ResolveEnv)
    (pv : String → Except String Version) (fetcher : Fetcher) (bin_path : String)
    (package : Package) (install_path : String) (binaries : List Product) :
    download_extract_and_verify { env with parseVersion := pv } fetcher bin_path package
        install_path binaries
      = download_extract_and_verify env fetcher bin_path package install_path binaries := by
  simp only [download_extract_and_verify, collect_bin_files_parseVersion,
    checkSourcesExist_parseVersion]

/-- Helper: the scan loop never consults the version parser. -/
theorem scanLoop_parseVersion (env : ResolveEnv) (pv : String → Except String Version)
    (cn : String) (vr : VersionReq) (temp_dir install_path : String) (package : Package)
    (binaries : List Product) (fs : List Fetcher) :
    scanLoop ⟨{ env with parseVersion := pv }, cn, vr, temp_dir, install_path, package, binaries⟩ fs
      = scanLoop ⟨env, cn, vr, temp_dir, install_path, package, binaries⟩ fs := by
  induction fs with
  | nil => rfl
  | cons f rest ih =>
    simp only [scanLoop, ih, download_extract_and_verify_parseVersion]

/-- Helper: with no current version supplied, the whole resolution is
independent of the version parser. -/
theorem resolve_inner_parseVersion (env : ResolveEnv) (pv : String → Except String Version)
    (opts : Options) (cn : CrateName) (temp_dir install_path : String) :
    resolve_inner { env with parseVersion := pv } opts cn none temp_dir install_path
      = resolve_inner env opts cn none temp_dir install_path := by
  cases hv : selectVersionReq cn.version_req opts.version_req with
  | error e => simp only [resolve_inner, hv]
  | ok vr =>
    have hfm : fetchManifest { env with parseVersion := pv } opts cn.name vr
        = fetchManifest env opts cn.name vr := rfl
    cases hm : fetchManifest env opts cn.name vr with
    | error e => simp only [resolve_inner, hv, hfm, hm]
    | ok manifest =>
      cases hp : manifest.package with
      | none => simp only [resolve_inner, hv, hfm, hm, hp]
      | some package =>
        have hb : buildHandles { env with parseVersion := pv } = buildHandles env := rfl
        simp only [resolve_inner, hv, hfm, hm, hp, checkUpToDate, hb, scanLoop_parseVersion]

/-- C10: the up-to-date check precedes the binary-list check — with an
equal current version the result is `AlreadyUpToDate` whatever the
manifest's binary list contains — and with no current version supplied
the resolution result is independent of the version parser, so an
unparsable package version cannot produce a version-parse failure at
this stage. -/
theorem C10_up_to_date_precedes_bin_check (env : ResolveEnv) (opts : Options) (cn : CrateName)
    (temp_dir install_path : String) (vr : VersionReq) (manifest : Manifest) (package : Package) :
    selectVersionReq cn.version_req opts.version_req = .ok vr →
    fetchManifest env opts cn.name vr = .ok manifest →
    manifest.package = some package →
    ((∀ new_version curr, env.parseVersion package.version = .ok new_version →
        new_version = curr →
        resolve_inner env opts cn (some curr) temp_dir install_path
            = .ok Resolution.AlreadyUpToDate)
     ∧ (∀ pv, resolve_inner { env with parseVersion := pv } opts cn none temp_dir install_path
            = resolve_inner env opts cn none temp_dir install_path)) := by
  intro hv hm hp
  constructor
  · intro nv curr hparse heq
    subst heq
    simp only [resolve_inner, hv, hm, hp, checkUpToDate, hparse]
    simp
  · intro pv
    exact resolve_inner_parseVersion env pv opts cn temp_dir install_path

/-- Concrete package fixture used by the witnesses. -/
def pkgFoo : Package :=
  { name := "foo", version := "1.2.0", repository := some "example.com/foo", metadata := none }

/-- Manifest fixture with one named binary. -/
def manifestFoo : Manifest :=
  { package := some pkgFoo, bin := [{ name := some "foo" }] }

/-- Manifest fixture whose binary list has only unnamed entries. -/
def manifestNoNames : Manifest :=
  { package := some pkgFoo, bin := [{ name := none }, { name := none }] }

/-- Package fixture whose version string does not parse. -/
def pkgBad : Package :=
  { name := "foo", version := "not-semver" }

/-- Manifest fixture around `pkgBad`. -/
def manifestBad : Manifest :=
  { package := some pkgBad, bin := [{ name := some "foo" }] }

/-- The semantic version 1.2.0. -/
def v120 : Version := ⟨1, 2, 0, "", ""⟩

/-- Concrete oracle environment used by the witnesses. -/
def testEnv : ResolveEnv :=
  { fetch_crate_cratesio := fun _ _ => .ok manifestFoo
    pathKind := fun _ => .other
    parseManifest := fun _ => .error (.ManifestParse "unused")
    parseVersion := fun s => if s = "1.2.0" then .ok v120 else .error "parse"
    probe := fun _ _ => .ok false
    fetchAndExtract := fun _ _ _ => .ok ()
    inferBinDirTemplate := fun _ _ _ _ => "bindir"
    fromProduct := fun c =>
      .ok { base_name := c.bin
            source := c.bin_path ++ "/" ++ c.bin
            dest := c.install_path ++ "/" ++ c.bin
            link := c.install_path ++ "/" ++ c.bin }
    sourceExists := fun _ => true }

/-- `testEnv` whose registry returns the all-unnamed manifest. -/
def testEnvNoNames : ResolveEnv :=
  { testEnv with fetch_crate_cratesio := fun _ _ => .ok manifestNoNames }

/-- `testEnv` whose registry returns the unparsable-version manifest. -/
def testEnvBad : ResolveEnv :=
  { testEnv with fetch_crate_cratesio := fun _ _ => .ok manifestBad }

/-- Concrete fetcher fixture built over `testEnv`. -/
def fetcherGh : Fetcher :=
  mkFetcher testEnv .ghCrateMeta
    (mkFetcherData pkgFoo PkgMeta.default {} "x86_64-unknown-linux-gnu")

/-- Concrete scan context fixture. -/
def ctx0 : ScanCtx :=
  { env := testEnv, crate_name := "foo", version_req := VersionReq.STAR, temp_dir := "/tmp",
    install_path := "/ins", package := pkgFoo, binaries := [{ name := some "foo" }] }

/-- Witness for C3: a supplied current version equal to the freshly parsed
package version yields `AlreadyUpToDate` even with an always-positive
probe oracle; an unparsable version string yields `VersionParse`. -/
theorem C3_already_up_to_date_witness :
    resolve_inner { testEnv with probe := fun _ _ => .ok true } {} ⟨"foo", none⟩ (some v120)
        "/tmp" "/ins" = .ok Resolution.AlreadyUpToDate
    ∧ resolve_inner testEnvBad {} ⟨"foo", none⟩ (some v120) "/tmp" "/ins"
        = .error (.VersionParse "not-semver" "parse") :=
  ⟨(C3_already_up_to_date testEnv {} ⟨"foo", none⟩ "/tmp" "/ins" VersionReq.STAR manifestFoo
      pkgFoo rfl rfl rfl).1 v120 v120 rfl rfl (fun _ _ => .ok true),
   (C3_already_up_to_date testEnvBad {} ⟨"foo", none⟩ "/tmp" "/ins" VersionReq.STAR manifestBad
      pkgBad rfl rfl rfl).2 "parse" v120 rfl⟩

/-- Witness for C4: two binaries named alike render to the same source
path and `collect_bin_files` fails with that duplicated path. -/
theorem C4_distinct_sources_witness :
    collect_bin_files testEnv fetcherGh pkgFoo {} [{ name := some "dup" }, { name := some "dup" }]
        "/bp" "/ip" = .error (.DuplicateSourceFilePath "/bp/dup") := by
  obtain ⟨p, h1, h2⟩ := (C4_distinct_sources testEnv fetcherGh pkgFoo {}
      [{ name := some "dup" }, { name := some "dup" }] "/bp" "/ip").2
    [⟨"dup", "/bp/dup", "/ip/dup", "/ip/dup"⟩, ⟨"dup", "/bp/dup", "/ip/dup", "/ip/dup"⟩]
    rfl (by decide)
  by_cases hp : p = "/bp/dup"
  · rw [hp] at h1
    exact h1
  · have hne : "/bp/dup" ≠ p := Ne.symm hp
    simp [countOcc, hne] at h2

/-- Witness for C5: a negative probe is skipped silently; an erroring
probe logs exactly one warning and continues. -/
theorem C5_failures_logged_and_skipped_witness :
    scanLoop ctx0 [fetcherGh] = scanLoop ctx0 []
    ∧ (scanLoop ctx0 [{ fetcherGh with find := .error "net" }]).2
        = [.warnProbeError "GhCrateMeta" "net"] := by
  constructor
  · exact (C5_failures_logged_and_skipped ctx0 fetcherGh []).1 rfl
  · have h := ((C5_failures_logged_and_skipped ctx0 { fetcherGh with find := .error "net" }
        []).2.1 "net" rfl).2
    exact h.trans rfl

/-- Witness for C6: an override entry for a different target triple does
not change the effective metadata. -/
theorem C6_three_way_merge_witness :
    effectiveTargetMeta
        { bin_dir := some "base", overrides := [("other-triple", { bin_dir := some "x" })] }
        {} "t" = effectiveTargetMeta { bin_dir := some "base" } {} "t" :=
  (C6_three_way_merge { bin_dir := some "base" } {} "t").2.2.2.2.2 "other-triple"
    { bin_dir := some "x" } (by decide)

/-- Witness for C7: a scan whose only pair probes negative ends in
`InstallFromSource`. -/
theorem C7_exhaustion_install_from_source_witness :
    (scanLoop ctx0 [fetcherGh]).1 = .ok (.InstallFromSource pkgFoo) := by
  have h := C7_exhaustion_install_from_source ctx0 [fetcherGh] ?_
  · exact h
  · intro f hf hfind bfs
    rcases List.mem_singleton.mp hf with rfl
    have hfalse : (Except.ok false : Except String Bool) = Except.ok true := hfind
    simp at hfalse

/-- Witness for C8: a manifest with two unnamed binaries and no named one
fails with the no-binaries error. -/
theorem C8_no_named_binaries_witness :
    resolve_inner testEnvNoNames {} ⟨"foo", none⟩ none "/tmp" "/ins"
      = .error .UnspecifiedBinaries :=
  C8_no_named_binaries testEnvNoNames {} ⟨"foo", none⟩ "/tmp" "/ins" VersionReq.STAR
    manifestNoNames pkgFoo rfl rfl rfl (by decide)

/-- Witness for C10: with the all-unnamed manifest, an equal supplied
current version still yields `AlreadyUpToDate` — the up-to-date check
fires before the binary-list check. -/
theorem C10_up_to_date_precedes_bin_check_witness :
    resolve_inner testEnvNoNames {} ⟨"foo", none⟩ (some v120) "/tmp" "/ins"
      = .ok Resolution.AlreadyUpToDate :=
  (C10_up_to_date_precedes_bin_check testEnvNoNames {} ⟨"foo", none⟩ "/tmp" "/ins"
    VersionReq.STAR manifestNoNames pkgFoo rfl rfl rfl).1 v120 v120 rfl rfl
